import Mathlib

/-!
Verification of the load-testing engine specification for the K6Learning
repository.  The repository's own files are k6 configuration scripts
(stage lists, thresholds, scenario functions); the engine they drive
(stage scheduler, metric registry, virtual-user pool, iteration executor,
threshold evaluator, run coordinator) is modelled from the specification,
while the script-level functions (randomItem, ecommerceUserJourney, the
test functions and their metric updates) are embedded from the source.
Times, targets and metric values are rationals; concurrency is modelled
as interleavings (lists of events) and as a small-step transition system.
-/

namespace K6

/-- Modelled from the spec: a ramp stage, `{duration, target}` — the stage
scheduler walks an ordered list of these, linearly interpolating the
desired concurrency.  The source scripts supply concrete stage lists, e.g.
spike_test uses [{10s,5},{30s,50},{1m,5}]. -/
structure Stage where
  duration : ℚ
  target : ℚ
  deriving DecidableEq, Repr

/-- Modelled from the spec: interpolated target concurrency at elapsed time
`t`, starting from previous target `prev` (0 or startVUs for the first
stage).  For a stage of duration `d` and target `tg`, the value at offset
`t` within the stage is `prev + (tg - prev) * t / d`; a zero-duration stage
jumps instantly to its target; past the last stage the last target holds. -/
def targetAt (prev : ℚ) : List Stage → ℚ → ℚ
  | [], _ => prev
  | s :: rest, t =>
    if t ≤ s.duration then
      if s.duration = 0 then s.target
      else prev + (s.target - prev) * t / s.duration
    else targetAt s.target rest (t - s.duration)

/-- The (start target, end target) pair of the stage that elapsed time `t`
falls into, following exactly the recursion of `targetAt`; `none` if `t` is
past the end of the stage list. -/
def stageSpanAt (prev : ℚ) : List Stage → ℚ → Option (ℚ × ℚ)
  | [], _ => none
  | s :: rest, t =>
    if t ≤ s.duration then some (prev, s.target)
    else stageSpanAt s.target rest (t - s.duration)

/-- Cumulative elapsed time at the end boundary of stage `k` (0-indexed):
the sum of the durations of stages `0..k`. -/
def stageBoundary (stages : List Stage) (k : ℕ) : ℚ :=
  ((stages.take (k + 1)).map (fun s => s.duration)).sum

/-- The spike_test stage list from the source configuration:
duration 10s target 5, duration 30s target 50, duration 1m target 5. -/
def spikeStages : List Stage := [⟨10, 5⟩, ⟨30, 50⟩, ⟨60, 5⟩]

lemma sum_durations_nonneg {l : List Stage} (h : ∀ s ∈ l, 0 < s.duration) :
    0 ≤ (l.map (fun s => s.duration)).sum := by
  induction l with
  | nil => simp
  | cons a l ih =>
    simp only [List.map_cons, List.sum_cons]
    have ha := h a (by simp)
    have := ih (fun s hs => h s (by simp [hs]))
    linarith

lemma sum_durations_pos {l : List Stage} (hne : l ≠ [])
    (h : ∀ s ∈ l, 0 < s.duration) :
    0 < (l.map (fun s => s.duration)).sum := by
  cases l with
  | nil => simp at hne
  | cons a l =>
    simp only [List.map_cons, List.sum_cons]
    have ha := h a (by simp)
    have := sum_durations_nonneg (fun s hs => h s (List.mem_cons_of_mem a hs))
    linarith

lemma targetAt_between (stages : List Stage) :
    ∀ (prev t a b : ℚ), 0 ≤ t → stageSpanAt prev stages t = some (a, b) →
      min a b ≤ targetAt prev stages t ∧ targetAt prev stages t ≤ max a b := by
  induction stages with
  | nil => intro prev t a b _ hspan; simp [stageSpanAt] at hspan
  | cons s rest ih =>
    intro prev t a b ht hspan
    by_cases hle : t ≤ s.duration
    · simp only [stageSpanAt, if_pos hle, Option.some.injEq, Prod.mk.injEq] at hspan
      obtain ⟨rfl, rfl⟩ := hspan
      by_cases hd : s.duration = 0
      · simp only [targetAt, if_pos hle, if_pos hd]
        exact ⟨min_le_right _ _, le_max_right _ _⟩
      · have hdpos : 0 < s.duration := lt_of_le_of_ne (le_trans ht hle) (Ne.symm hd)
        simp only [targetAt, if_pos hle, if_neg hd]
        have hu0 : 0 ≤ t / s.duration := div_nonneg ht (le_of_lt hdpos)
        have hu1 : t / s.duration ≤ 1 := (div_le_one hdpos).mpr hle
        rw [mul_div_assoc]
        rcases le_total prev s.target with hpb | hbp
        · rw [min_eq_left hpb, max_eq_right hpb]
          constructor <;> nlinarith
        · rw [min_eq_right hbp, max_eq_left hbp]
          constructor <;> nlinarith
    · simp only [stageSpanAt, if_neg hle] at hspan
      simp only [targetAt, if_neg hle]
      have hnot : ¬ t ≤ s.duration := hle
      have ht2 : 0 ≤ t - s.duration := by
        push_neg at hnot
        linarith
      exact ih s.target (t - s.duration) a b ht2 hspan

lemma targetAt_boundary (stages : List Stage) :
    ∀ (prev : ℚ) (k : ℕ) (hk : k < stages.length),
      (∀ s ∈ stages, 0 < s.duration) →
      targetAt prev stages (stageBoundary stages k) = (stages.get ⟨k, hk⟩).target := by
  induction stages with
  | nil => intro prev k hk _; simp at hk
  | cons s rest ih =>
    intro prev k hk hpos
    have hs := hpos s (by simp)
    cases k with
    | zero =>
      have hget : ((s :: rest).get ⟨0, hk⟩) = s := rfl
      rw [hget]
      simp only [stageBoundary, List.take, List.map_cons, List.map_nil,
        List.sum_cons, List.sum_nil, add_zero]
      simp only [targetAt, if_pos (le_refl s.duration), if_neg (ne_of_gt hs)]
      rw [mul_div_assoc, div_self (ne_of_gt hs), mul_one]
      ring
    | succ k =>
      have hk2 : k < rest.length := by simpa using hk
      have hrestpos : ∀ x ∈ rest, 0 < x.duration := fun x hx => hpos x (by simp [hx])
      have hbdec : stageBoundary (s :: rest) (k + 1) = s.duration + stageBoundary rest k := by
        simp [stageBoundary, List.take]
      have hBpos : 0 < stageBoundary rest k := by
        apply sum_durations_pos
        · apply List.length_pos.mp
          rw [List.length_take]
          omega
        · intro x hx
          exact hrestpos x (List.mem_of_mem_take hx)
      have hget : ((s :: rest).get ⟨k + 1, hk⟩) = rest.get ⟨k, hk2⟩ := rfl
      rw [hget, hbdec]
      have hcond : ¬ (s.duration + stageBoundary rest k ≤ s.duration) := by linarith
      simp only [targetAt, if_neg hcond]
      have harg : s.duration + stageBoundary rest k - s.duration = stageBoundary rest k := by
        ring
      rw [harg]
      exact ih s.target k hk2 hrestpos

/-- C1: for every stage list and every tick time that falls within a stage,
the interpolated target concurrency lies between that stage's start target
(the previous stage's target, or the configured start value for the first
stage) and its end target, inclusive; and at the exact elapsed-time
boundary of stage `k` (all durations positive) the interpolated value
equals stage `k`'s end target. -/
theorem stage_interpolation_bounds_and_boundary :
    (∀ (prev t a b : ℚ) (stages : List Stage), 0 ≤ t →
        stageSpanAt prev stages t = some (a, b) →
        min a b ≤ targetAt prev stages t ∧ targetAt prev stages t ≤ max a b) ∧
    (∀ (prev : ℚ) (stages : List Stage) (k : ℕ) (hk : k < stages.length),
        (∀ s ∈ stages, 0 < s.duration) →
        targetAt prev stages (stageBoundary stages k) = (stages.get ⟨k, hk⟩).target) := by
  constructor
  · intro prev t a b stages ht hspan
    exact targetAt_between stages prev t a b ht hspan
  · intro prev stages k hk hpos
    exact targetAt_boundary stages prev k hk hpos

/-- Witness for C1: applying the theorem to the spike_test stage list from
the source at tick time 15 (inside the second stage, span 5 to 50), and at
the boundary of stage 1 (elapsed 40s, target 50). -/
theorem stage_interpolation_witness :
    (min (5 : ℚ) 50 ≤ targetAt 0 spikeStages 15 ∧ targetAt 0 spikeStages 15 ≤ max 5 50) ∧
    targetAt 0 spikeStages (stageBoundary spikeStages 1) = (spikeStages.get ⟨1, by decide⟩).target := by
  constructor
  · exact stage_interpolation_bounds_and_boundary.1 0 15 5 50 spikeStages (by norm_num)
      (by norm_num [stageSpanAt, spikeStages])
  · exact stage_interpolation_bounds_and_boundary.2 0 spikeStages 1 (by decide)
      (by decide)

/-- C8 counterexample: for the spike_test stage list [{10s,5},{30s,50},{60s,5}]
scheduled from 0 VUs, the interpolated concurrency at t=40s is 50, not 5:
t=40s is the exact end boundary of the second stage, which ramps 5 up to 50,
so the claimed value 5 is wrong there. -/
theorem spike_profile_counterexample :
    targetAt 0 spikeStages 40 = 50 ∧ ¬ (targetAt 0 spikeStages 40 = 5) := by
  constructor
  · norm_num [targetAt, spikeStages]
  · norm_num [targetAt, spikeStages]

/-- C8 amended: for the spike_test stage list [{10s,5},{30s,50},{60s,5}]
scheduled from 0 VUs, the interpolated concurrency is 5 at t=10s, 27.5
(within 27–28) at t=25s, the midpoint of the second stage, and 50 at t=40s,
the end of the spike; the value 5 is reached again at t=100s, the end of the
ramp-down. -/
theorem spike_profile_values :
    targetAt 0 spikeStages 10 = 5 ∧
    (targetAt 0 spikeStages 25 = 55 / 2 ∧
      27 ≤ targetAt 0 spikeStages 25 ∧ targetAt 0 spikeStages 25 ≤ 28) ∧
    targetAt 0 spikeStages 40 = 50 ∧
    targetAt 0 spikeStages 100 = 5 := by
  refine ⟨?_, ⟨?_, ?_, ?_⟩, ?_, ?_⟩ <;> norm_num [targetAt, spikeStages]

/-- Modelled from the spec: a Counter metric is a monotonically increasing
total; `observe` on a Counter adds the observed value to the total, and
concurrent observations must lose no update and double-count none. -/
def counterObserve (total : ℚ) (v : ℚ) : ℚ := total + v

/-- One interleaving of observe calls by `N` virtual users: each list entry
names the user performing one `observe` of 1 on the counter; the counter
starts at 0 and the events are applied in arrival order. -/
def runSchedule (N : ℕ) (l : List (Fin N)) : ℚ :=
  l.foldl (fun c _ => counterObserve c 1) 0

lemma foldl_counterObserve_one (N : ℕ) (l : List (Fin N)) :
    ∀ a : ℚ, l.foldl (fun c _ => counterObserve c 1) a = a + l.length := by
  induction l with
  | nil => intro a; simp
  | cons x l ih =>
    intro a
    rw [List.foldl_cons, ih]
    show counterObserve a 1 + (l.length : ℚ) = a + ((x :: l).length : ℚ)
    rw [counterObserve, List.length_cons]
    push_cast
    ring

lemma runSchedule_eq_length (N : ℕ) (l : List (Fin N)) :
    runSchedule N l = l.length := by
  simpa using foldl_counterObserve_one N l 0

/-- C2: for every N and M and every interleaving of N virtual users each
making M observe(1) calls on a Counter (any list of user events in which
each user appears exactly M times), the final counter total equals N*M;
and the total is invariant under reordering of the events (permutations),
so no arrival order can lose or double-count an observation. -/
theorem counter_no_lost_updates :
    (∀ (N M : ℕ) (l : List (Fin N)), (∀ u : Fin N, l.count u = M) →
        runSchedule N l = (N : ℚ) * M) ∧
    (∀ (N : ℕ) (l₁ l₂ : List (Fin N)), l₁.Perm l₂ →
        runSchedule N l₁ = runSchedule N l₂) := by
  constructor
  · intro N M l h
    rw [runSchedule_eq_length]
    have hlen : l.length = N * M := by
      have hcard : ∑ u : Fin N, (l : Multiset (Fin N)).count u =
          Multiset.card (l : Multiset (Fin N)) :=
        Multiset.sum_count_eq_card (fun a _ => Finset.mem_univ a)
      simp only [Multiset.coe_count, Multiset.coe_card] at hcard
      rw [← hcard]
      simp [h, Finset.sum_const, Finset.card_univ]
    rw [hlen]
    push_cast
    ring
  · intro N l₁ l₂ hperm
    rw [runSchedule_eq_length, runSchedule_eq_length, hperm.length_eq]

/-- Witness for C2: three users each observing twice, in an interleaved
arrival order, total 6; and a transposed order gives the same total. -/
theorem counter_no_lost_updates_witness :
    runSchedule 3 [0, 1, 2, 2, 0, 1] = (3 : ℚ) * 2 ∧
    runSchedule 3 [0, 1, 2, 2, 0, 1] = runSchedule 3 [1, 0, 2, 2, 0, 1] := by
  constructor
  · exact counter_no_lost_updates.1 3 2 [0, 1, 2, 2, 0, 1] (by decide)
  · exact counter_no_lost_updates.2 3 [0, 1, 2, 2, 0, 1] [1, 0, 2, 2, 0, 1] (by decide)

/-- Embedded from the source utility function:
randomItem(array) returns array[Math.floor(Math.random() * array.length)].
Math.random() is modelled as a rational `rnd` with 0 ≤ rnd < 1; JavaScript
out-of-range indexing yields undefined, modelled as Option.none. -/
def randomItem {α : Type} (array : List α) (rnd : ℚ) : Option α :=
  array[(⌊rnd * array.length⌋).toNat]?

/-- C9: for every non-empty array and every random draw in [0,1), randomItem
returns an element of the array (the computed floor index is in range); on
the empty array it returns undefined (none) rather than raising an error. -/
theorem randomItem_safe :
    (∀ (α : Type) (a : List α) (rnd : ℚ), 0 ≤ rnd → rnd < 1 → a ≠ [] →
        ∃ x, randomItem a rnd = some x ∧ x ∈ a) ∧
    (∀ (α : Type) (rnd : ℚ), randomItem ([] : List α) rnd = none) := by
  constructor
  · intro α a rnd h0 h1 hne
    have hn : 0 < a.length := List.length_pos.mpr hne
    have hnq : (0 : ℚ) < a.length := by exact_mod_cast hn
    have hprod : rnd * a.length < a.length := by nlinarith
    have hfl : ⌊rnd * (a.length : ℚ)⌋ < (a.length : ℤ) := by
      rw [Int.floor_lt]
      exact_mod_cast hprod
    have hfl0 : 0 ≤ ⌊rnd * (a.length : ℚ)⌋ :=
      Int.floor_nonneg.mpr (by positivity)
    have hidx : (⌊rnd * (a.length : ℚ)⌋).toNat < a.length := by omega
    refine ⟨a.get ⟨_, hidx⟩, ?_, List.get_mem a _ hidx⟩
    simp [randomItem, List.getElem?_eq_getElem hidx]
  · intro α rnd
    simp [randomItem]

/-- Witness for C9: a draw of 1/2 on the three-element product list picks
the middle element, and on the empty list randomItem is none. -/
theorem randomItem_safe_witness :
    (∃ x, randomItem [10, 20, 30] (1 / 2 : ℚ) = some x ∧ x ∈ [10, 20, 30]) ∧
    randomItem ([] : List ℕ) (1 / 2 : ℚ) = none := by
  constructor
  · exact randomItem_safe.1 ℕ [10, 20, 30] (1 / 2) (by norm_num) (by norm_num) (by simp)
  · exact randomItem_safe.2 ℕ (1 / 2)

/-- The four custom metrics declared at the top of the source script:
error_rate (Rate, a list of boolean observations), page_load_time and
api_response_time (Trends, lists of numeric samples), and checkout_errors
(a Counter total). -/
structure ScriptMetrics where
  error_rate : List Bool
  page_load_time : List ℚ
  api_response_time : List ℚ
  checkout_errors : ℕ
  deriving DecidableEq, Repr

/-- errorRate.add(b) — append one boolean observation. -/
def rateAdd (m : ScriptMetrics) (b : Bool) : ScriptMetrics :=
  { m with error_rate := m.error_rate ++ [b] }

/-- pageLoadTime.add(v) — append one numeric sample. -/
def pageAdd (m : ScriptMetrics) (v : ℚ) : ScriptMetrics :=
  { m with page_load_time := m.page_load_time ++ [v] }

/-- apiResponseTime.add(v) — append one numeric sample. -/
def apiAdd (m : ScriptMetrics) (v : ℚ) : ScriptMetrics :=
  { m with api_response_time := m.api_response_time ++ [v] }

/-- checkoutErrors.add(v) — increase the counter total. -/
def checkoutAdd (m : ScriptMetrics) (v : ℕ) : ScriptMetrics :=
  { m with checkout_errors := m.checkout_errors + v }

/-- Embedded from the source smokeTest: one GET of the homepage with status
`homeStatus`, then pageLoadTime.add(elapsed) and
errorRate.add(status !== 200), in that order. -/
def smokeTest (homeStatus : ℕ) (elapsed : ℚ) (m : ScriptMetrics) : ScriptMetrics :=
  rateAdd (pageAdd m elapsed) (homeStatus != 200)

/-- Embedded from the source loadTest: four GETs (homepage, products,
search, product detail) with statuses s1..s4; only the last response feeds
errorRate, after pageLoadTime.add(elapsed). -/
def loadTest (s1 s2 s3 s4 : ℕ) (elapsed : ℚ) (m : ScriptMetrics) : ScriptMetrics :=
  rateAdd (pageAdd m elapsed) (s4 != 200)

/-- Embedded from the source stressTest: three randomly chosen actions with
statuses s1..s3, each followed by errorRate.add(status !== 200), then
pageLoadTime.add(elapsed). -/
def stressTest (s1 s2 s3 : ℕ) (elapsed : ℚ) (m : ScriptMetrics) : ScriptMetrics :=
  pageAdd (rateAdd (rateAdd (rateAdd m (s1 != 200)) (s2 != 200)) (s3 != 200)) elapsed

/-- Embedded from the source spikeTest: a batch of four requests with
statuses s1..s4, errorRate.add for each, then pageLoadTime.add(elapsed). -/
def spikeTest (s1 s2 s3 s4 : ℕ) (elapsed : ℚ) (m : ScriptMetrics) : ScriptMetrics :=
  pageAdd (rateAdd (rateAdd (rateAdd (rateAdd m (s1 != 200)) (s2 != 200)) (s3 != 200)) (s4 != 200)) elapsed

/-- Embedded from the source apiPerformanceTest: three API GETs with
statuses s1..s3 and timing samples d1..d3; for each,
apiResponseTime.add(duration) then errorRate.add(status !== 200). -/
def apiPerformanceTest (s1 s2 s3 : ℕ) (d1 d2 d3 : ℚ) (m : ScriptMetrics) : ScriptMetrics :=
  rateAdd (apiAdd (rateAdd (apiAdd (rateAdd (apiAdd m d1) (s1 != 200)) d2) (s2 != 200)) d3) (s3 != 200)

/-- Embedded from the source ecommerceUserJourney: seven HTTP calls; the
add-to-cart POST feeds apiResponseTime.add(apiElapsed); the GET /checkout
response with status `checkoutStatus` feeds checkoutErrors.add(1) exactly
when its status is not 200; finally pageLoadTime.add(pageElapsed). -/
def ecommerceUserJourney (homeS catS prodsS prodS cartAddS cartS checkoutStatus : ℕ)
    (apiElapsed pageElapsed : ℚ) (m : ScriptMetrics) : ScriptMetrics :=
  let m1 := apiAdd m apiElapsed
  let m2 := if checkoutStatus != 200 then checkoutAdd m1 1 else m1
  pageAdd m2 pageElapsed

/-- C10: in every execution of ecommerceUserJourney the checkout_errors
Counter grows by exactly 1 when the GET /checkout status is not 200 and is
unchanged otherwise; and none of the other scenario functions (smokeTest,
loadTest, stressTest, spikeTest, apiPerformanceTest — the default export
just calls loadTest) modifies checkout_errors. -/
theorem checkout_errors_frame :
    (∀ (a b c d e f checkoutStatus : ℕ) (ae pe : ℚ) (m : ScriptMetrics),
        (ecommerceUserJourney a b c d e f checkoutStatus ae pe m).checkout_errors =
          m.checkout_errors + (if checkoutStatus ≠ 200 then 1 else 0)) ∧
    (∀ (hs : ℕ) (e : ℚ) (m : ScriptMetrics),
        (smokeTest hs e m).checkout_errors = m.checkout_errors) ∧
    (∀ (s1 s2 s3 s4 : ℕ) (e : ℚ) (m : ScriptMetrics),
        (loadTest s1 s2 s3 s4 e m).checkout_errors = m.checkout_errors) ∧
    (∀ (s1 s2 s3 : ℕ) (e : ℚ) (m : ScriptMetrics),
        (stressTest s1 s2 s3 e m).checkout_errors = m.checkout_errors) ∧
    (∀ (s1 s2 s3 s4 : ℕ) (e : ℚ) (m : ScriptMetrics),
        (spikeTest s1 s2 s3 s4 e m).checkout_errors = m.checkout_errors) ∧
    (∀ (s1 s2 s3 : ℕ) (d1 d2 d3 : ℚ) (m : ScriptMetrics),
        (apiPerformanceTest s1 s2 s3 d1 d2 d3 m).checkout_errors = m.checkout_errors) := by
  refine ⟨?_, ?_, ?_, ?_, ?_, ?_⟩
  · intro a b c d e f checkoutStatus ae pe m
    by_cases h : checkoutStatus = 200 <;>
      simp [ecommerceUserJourney, apiAdd, checkoutAdd, pageAdd, h]
  · intro hs e m; simp [smokeTest, rateAdd, pageAdd]
  · intro s1 s2 s3 s4 e m; simp [loadTest, rateAdd, pageAdd]
  · intro s1 s2 s3 e m; simp [stressTest, rateAdd, pageAdd]
  · intro s1 s2 s3 s4 e m; simp [spikeTest, rateAdd, pageAdd]
  · intro s1 s2 s3 d1 d2 d3 m; simp [apiPerformanceTest, rateAdd, apiAdd]

/-- Modelled from the spec: the aggregator of a threshold predicate —
p(N) percentile, rate, mean, or count — as produced by configuration-time
parsing of predicate strings such as p(95)<2000 and rate<0.1. -/
inductive Agg
  | rateAgg
  | avgAgg
  | countAgg
  | pAgg (q : ℕ)
  deriving DecidableEq, Repr

/-- Modelled from the spec: the comparator of a threshold predicate. -/
inductive Cmp
  | ltCmp
  | leCmp
  | gtCmp
  | geCmp
  | eqCmp
  deriving DecidableEq, Repr

/-- Modelled from the spec: a predicate parsed once at configuration time
into aggregator, comparator and limit. -/
structure Pred where
  agg : Agg
  cmp : Cmp
  limit : ℚ
  deriving DecidableEq, Repr

/-- Whether the first character list is a leading segment of the second. -/
def leadsList : List Char → List Char → Bool
  | [], _ => true
  | _ :: _, [] => false
  | a :: as, b :: bs => a == b && leadsList as bs

/-- Split a character list at the first occurrence of a separator. -/
def splitOnceChars (sep : List Char) : List Char → Option (List Char × List Char)
  | [] => none
  | c :: rest =>
    if leadsList sep (c :: rest) then some ([], (c :: rest).drop sep.length)
    else
      match splitOnceChars sep rest with
      | some (a, b) => some (c :: a, b)
      | none => none

/-- Find the comparator of a predicate string, trying the two-character
comparators before the one-character ones. -/
def splitCmp (s : List Char) : Option (List Char × Cmp × List Char) :=
  match splitOnceChars ['<', '='] s with
  | some (a, b) => some (a, Cmp.leCmp, b)
  | none =>
    match splitOnceChars ['>', '='] s with
    | some (a, b) => some (a, Cmp.geCmp, b)
    | none =>
      match splitOnceChars ['=', '='] s with
      | some (a, b) => some (a, Cmp.eqCmp, b)
      | none =>
        match splitOnceChars ['<'] s with
        | some (a, b) => some (a, Cmp.ltCmp, b)
        | none =>
          match splitOnceChars ['>'] s with
          | some (a, b) => some (a, Cmp.gtCmp, b)
          | none => none

/-- The numeric value of a decimal digit character. -/
def digitVal (c : Char) : Option ℕ :=
  if c = '0' then some 0 else if c = '1' then some 1 else if c = '2' then some 2
  else if c = '3' then some 3 else if c = '4' then some 4 else if c = '5' then some 5
  else if c = '6' then some 6 else if c = '7' then some 7 else if c = '8' then some 8
  else if c = '9' then some 9 else none

/-- Parse a non-empty run of decimal digits. -/
def digitsToNat : List Char → Option ℕ
  | [] => none
  | l =>
    l.foldl
      (fun acc c =>
        match acc, digitVal c with
        | some a, some d => some (a * 10 + d)
        | _, _ => none)
      (some 0)

/-- Parse an aggregator name: rate, avg, count, or p(N). -/
def parseAgg (s : List Char) : Option Agg :=
  if s = "rate".data then some Agg.rateAgg
  else if s = "avg".data then some Agg.avgAgg
  else if s = "count".data then some Agg.countAgg
  else
    match s with
    | 'p' :: '(' :: rest =>
      match rest.reverse with
      | ')' :: revDigits => (digitsToNat revDigits.reverse).map Agg.pAgg
      | _ => none
    | _ => none

/-- Parse a decimal limit such as 2000 or 0.1 into a rational. -/
def parseLimit (s : List Char) : Option ℚ :=
  match splitOnceChars ['.'] s with
  | none => (digitsToNat s).map (fun n => (n : ℚ))
  | some (w, f) =>
    match digitsToNat w, digitsToNat f with
    | some n, some fr => some ((n : ℚ) + (fr : ℚ) / ((10 : ℚ) ^ f.length))
    | _, _ => none

/-- Modelled from the spec: configuration-time parsing of one threshold
predicate string into {aggregator, comparator, limit}; `none` signals a
malformed predicate. -/
def parsePred (s : String) : Option Pred :=
  match splitCmp s.data with
  | none => none
  | some (a, c, b) =>
    match parseAgg a, parseLimit b with
    | some ag, some lim => some ⟨ag, c, lim⟩
    | _, _ => none

/-- Modelled from the spec: the per-metric snapshot data — a Counter total,
a Rate numerator/denominator pair, or a Trend's retained samples. -/
inductive MetricData
  | counterData (total : ℚ)
  | rateData (num den : ℕ)
  | trendData (samples : List ℚ)
  deriving DecidableEq, Repr

/-- Modelled from the spec: observe on a Rate metric — the numerator counts
true observations, the denominator counts all observations. -/
def rateObserve (p : ℕ × ℕ) (b : Bool) : ℕ × ℕ :=
  (p.1 + (if b then 1 else 0), p.2 + 1)

/-- Modelled from the spec: percentile of a Trend — sort the retained
samples and linearly interpolate between ranks; 0 on an empty sample set. -/
def percentile (samples : List ℚ) (q : ℕ) : ℚ :=
  let s := samples.insertionSort (· ≤ ·)
  if s = [] then 0
  else
    let pos : ℚ := (q : ℚ) * ((s.length : ℚ) - 1) / 100
    let i := (⌊pos⌋).toNat
    let lo := s.getD i 0
    let hi := s.getD (i + 1) lo
    lo + (hi - lo) * (pos - ⌊pos⌋)

/-- Apply an aggregator to a metric's snapshot data; `none` on a kind
mismatch. -/
def aggValue : Agg → MetricData → Option ℚ
  | Agg.countAgg, MetricData.counterData t => some t
  | Agg.rateAgg, MetricData.rateData n d => some ((n : ℚ) / (d : ℚ))
  | Agg.avgAgg, MetricData.trendData l => some (l.sum / (l.length : ℚ))
  | Agg.pAgg q, MetricData.trendData l => some (percentile l q)
  | _, _ => none

/-- Apply a comparator to the aggregated value and the configured limit. -/
def cmpHolds (c : Cmp) (v lim : ℚ) : Bool :=
  match c with
  | Cmp.ltCmp => decide (v < lim)
  | Cmp.leCmp => decide (v ≤ lim)
  | Cmp.gtCmp => decide (v > lim)
  | Cmp.geCmp => decide (v ≥ lim)
  | Cmp.eqCmp => decide (v = lim)

/-- A metric snapshot: named per-metric data, per-metric consistent. -/
def Snapshot := List (String × MetricData)

/-- Look a metric up by name in a snapshot. -/
def lookupMetric (snap : Snapshot) (name : String) : Option MetricData :=
  (snap.find? (fun p => decide (p.1 = name))).map Prod.snd

/-- Modelled from the spec: a configured threshold — metric name plus
parsed predicate. -/
structure Threshold where
  metricName : String
  pred : Pred
  deriving DecidableEq, Repr

/-- The outcome of evaluating one threshold on a snapshot. -/
structure ThresholdOutcome where
  passed : Bool
  observed : Option ℚ
  deriving DecidableEq, Repr

/-- Modelled from the spec: evaluate applies the aggregator to the metric
snapshot and the comparator to the result. -/
def evaluate (t : Threshold) (snap : Snapshot) : ThresholdOutcome :=
  match lookupMetric snap t.metricName with
  | none => ⟨false, none⟩
  | some d =>
    match aggValue t.pred.agg d with
    | none => ⟨false, none⟩
    | some v => ⟨cmpHolds t.pred.cmp v t.pred.limit, some v⟩

/-- The run verdict. -/
inductive Verdict
  | Pass
  | Fail
  deriving DecidableEq, Repr

/-- Modelled from the spec: the run verdict is Pass exactly when every
configured threshold passes on the final snapshot. -/
def verdictOf (ths : List Threshold) (snap : Snapshot) : Verdict :=
  if ths.all (fun t => (evaluate t snap).passed) then Verdict.Pass else Verdict.Fail

/-- Modelled from the spec: configuration-time validation of one threshold
entry (metric name, predicate string) against the registered metric names;
an unknown name or a malformed predicate is an InvalidThresholdError. -/
def parseThreshold (registered : List String) (name predStr : String) :
    Except String Threshold :=
  if name ∈ registered then
    match parsePred predStr with
    | some p => Except.ok ⟨name, p⟩
    | none => Except.error ("InvalidThresholdError: malformed predicate " ++ predStr)
  else Except.error ("InvalidThresholdError: unknown metric " ++ name)

/-- Modelled from the spec: validate the whole threshold configuration,
stopping at the first invalid entry. -/
def configureThresholds (registered : List String) :
    List (String × String) → Except String (List Threshold)
  | [] => Except.ok []
  | t :: rest =>
    match parseThreshold registered t.1 t.2 with
    | Except.error e => Except.error e
    | Except.ok th =>
      match configureThresholds registered rest with
      | Except.error e => Except.error e
      | Except.ok ths => Except.ok (th :: ths)

/-- The observable output of the run coordinator: how many virtual users
were ever spawned, and either a configuration error or a verdict. -/
structure RunOutput where
  vusSpawned : ℕ
  outcome : Except String Verdict
  deriving Repr

/-- Modelled from the spec: the run coordinator validates the threshold
configuration while still in the Configuring phase; only a successful
configuration proceeds to spawn virtual users and evaluate a verdict. -/
def runCoordinator (registered : List String) (ths : List (String × String))
    (plannedVUs : ℕ) (snap : Snapshot) : RunOutput :=
  match configureThresholds registered ths with
  | Except.error e => ⟨0, Except.error e⟩
  | Except.ok parsed => ⟨plannedVUs, Except.ok (verdictOf parsed snap)⟩

/-- A threshold configuration entry that must be rejected: unregistered
metric name or malformed predicate string. -/
def invalidEntry (registered : List String) (p : String × String) : Prop :=
  p.1 ∉ registered ∨ parsePred p.2 = none

lemma configureThresholds_error_of_invalid (registered : List String) :
    ∀ (ths : List (String × String)), (∃ p ∈ ths, invalidEntry registered p) →
      ∃ e, configureThresholds registered ths = Except.error e := by
  intro ths
  induction ths with
  | nil => rintro ⟨p, hp, _⟩; simp at hp
  | cons t rest ih =>
    rintro ⟨p, hp, hbad⟩
    rcases List.mem_cons.mp hp with rfl | hmem
    · rcases hbad with hname | hpred
      · refine ⟨"InvalidThresholdError: unknown metric " ++ p.1, ?_⟩
        simp [configureThresholds, parseThreshold, hname]
      · by_cases hreg : p.1 ∈ registered
        · refine ⟨"InvalidThresholdError: malformed predicate " ++ p.2, ?_⟩
          simp [configureThresholds, parseThreshold, hreg, hpred]
        · refine ⟨"InvalidThresholdError: unknown metric " ++ p.1, ?_⟩
          simp [configureThresholds, parseThreshold, hreg]
    · obtain ⟨e, he⟩ := ih ⟨p, hmem, hbad⟩
      cases hparse : parseThreshold registered t.1 t.2 with
      | error e2 => exact ⟨e2, by simp [configureThresholds, hparse]⟩
      | ok th => exact ⟨e, by simp [configureThresholds, hparse, he]⟩

/-- C4: for every threshold configuration containing an entry that names an
unregistered metric or a malformed predicate string, the run coordinator
reports the error from the Configuring phase: its output carries a
configuration error and zero virtual users were ever spawned, so the error
can never surface at evaluation time or mid-run. -/
theorem config_errors_fail_fast (registered : List String)
    (ths : List (String × String)) (plannedVUs : ℕ) (snap : Snapshot)
    (hbad : ∃ p ∈ ths, invalidEntry registered p) :
    ∃ e, runCoordinator registered ths plannedVUs snap =
      ⟨0, Except.error e⟩ := by
  obtain ⟨e, he⟩ := configureThresholds_error_of_invalid registered ths hbad
  exact ⟨e, by simp [runCoordinator, he]⟩

/-- Witness for C4: the source's threshold block extended with an entry for
an unregistered metric name causes a configuration error with zero virtual
users spawned, even though 50 users were planned. -/
theorem config_errors_fail_fast_witness :
    ∃ e, runCoordinator ["http_req_duration", "error_rate"]
        [("http_req_duration", "p(95)<2000"), ("unknown_metric", "rate<0.1")]
        50 [] = ⟨0, Except.error e⟩ :=
  config_errors_fail_fast ["http_req_duration", "error_rate"]
    [("http_req_duration", "p(95)<2000"), ("unknown_metric", "rate<0.1")] 50 []
    ⟨("unknown_metric", "rate<0.1"), by simp, Or.inl (by decide)⟩

/-- The error_rate observations of the C6 scenario: 100 iterations of which
exactly 15 record an error (a true observation on the Rate metric). -/
def errorRateObs : List Bool := List.replicate 15 true ++ List.replicate 85 false

/-- The error_rate snapshot data after folding the 100 observations through
the Rate metric's observe. -/
def errorRateData : MetricData :=
  MetricData.rateData (errorRateObs.foldl rateObserve (0, 0)).1
    (errorRateObs.foldl rateObserve (0, 0)).2

/-- The error_rate threshold from the source configuration, parsed:
error_rate has predicate rate<0.1. -/
def errorRateThreshold : Threshold :=
  ⟨"error_rate", ⟨Agg.rateAgg, Cmp.ltCmp, 1 / 10⟩⟩

/-- C6: with the source's error_rate threshold rate<0.1 and 100 iterations
of which exactly 15 record a true error observation, the predicate string
parses to the rate aggregator with limit 0.1, the observed rate is
15/100 = 0.15, the threshold fails, and the run verdict is Fail. -/
theorem error_rate_scenario :
    parsePred "rate<0.1" = some errorRateThreshold.pred ∧
    (evaluate errorRateThreshold [("error_rate", errorRateData)]).observed =
      some (15 / 100 : ℚ) ∧
    (15 / 100 : ℚ) = 0.15 ∧
    (evaluate errorRateThreshold [("error_rate", errorRateData)]).passed = false ∧
    verdictOf [errorRateThreshold] [("error_rate", errorRateData)] = Verdict.Fail := by
  have hparse : parsePred "rate<0.1" =
      some ⟨Agg.rateAgg, Cmp.ltCmp, ((0 : ℕ) : ℚ) + ((1 : ℕ) : ℚ) / (10 : ℚ) ^ 1⟩ := rfl
  have hdata : errorRateData = MetricData.rateData 15 100 := by
    have hfold : errorRateObs.foldl rateObserve (0, 0) = (15, 100) := by decide
    simp only [errorRateData, hfold]
  have hlook : lookupMetric [("error_rate", errorRateData)] "error_rate" =
      some (MetricData.rateData 15 100) := by
    rw [hdata]
    rfl
  have heval : evaluate errorRateThreshold [("error_rate", errorRateData)] =
      ⟨false, some ((15 : ℚ) / 100)⟩ := by
    simp only [evaluate, errorRateThreshold, hlook, aggValue, cmpHolds]
    norm_num
  refine ⟨?_, ?_, ?_, ?_, ?_⟩
  · rw [hparse]
    norm_num [errorRateThreshold]
  · rw [heval]
  · norm_num
  · rw [heval]
  · simp [verdictOf, heval]

lemma insertionSort_perm_eq {l₁ l₂ : List ℚ} (h : l₁.Perm l₂) :
    l₁.insertionSort (· ≤ ·) = l₂.insertionSort (· ≤ ·) :=
  List.eq_of_perm_of_sorted
    ((List.perm_insertionSort _ l₁).trans (h.trans (List.perm_insertionSort _ l₂).symm))
    (List.sorted_insertionSort _ l₁) (List.sorted_insertionSort _ l₂)

/-- C7: threshold evaluation is deterministic — any two evaluations of the
same parsed threshold on the same metric snapshot yield the same pass/fail
outcome and the same observed value; moreover the percentile aggregator
does not depend on the arrival order of the retained Trend samples
(permuted sample lists yield identical percentiles, since the samples are
sorted before rank interpolation). -/
theorem threshold_eval_deterministic :
    (∀ (t : Threshold) (snap : Snapshot) (o₁ o₂ : ThresholdOutcome),
        evaluate t snap = o₁ → evaluate t snap = o₂ →
        o₁.passed = o₂.passed ∧ o₁.observed = o₂.observed) ∧
    (∀ (l₁ l₂ : List ℚ) (q : ℕ), l₁.Perm l₂ → percentile l₁ q = percentile l₂ q) := by
  constructor
  · intro t snap o₁ o₂ h₁ h₂
    rw [← h₁, ← h₂]
    exact ⟨rfl, rfl⟩
  · intro l₁ l₂ q h
    unfold percentile
    rw [insertionSort_perm_eq h]

/-- Witness for C7: evaluating the source threshold p(95)<2000 on a fixed
http_req_duration Trend snapshot twice gives equal outcomes, and the
percentile of the samples is unchanged when they arrive in swapped order. -/
theorem threshold_eval_deterministic_witness :
    ((ThresholdOutcome.mk true (some (1500 : ℚ))).passed =
        (ThresholdOutcome.mk true (some (1500 : ℚ))).passed ∧
      (ThresholdOutcome.mk true (some (1500 : ℚ))).observed =
        (ThresholdOutcome.mk true (some (1500 : ℚ))).observed) ∧
    percentile [1900, 100] 95 = percentile [100, 1900] 95 := by
  have hperc : percentile [1500] 95 = 1500 := by
    simp [percentile, List.insertionSort, List.orderedInsert, List.getD]
  have heval : evaluate ⟨"http_req_duration", ⟨Agg.pAgg 95, Cmp.ltCmp, 2000⟩⟩
      [("http_req_duration", MetricData.trendData [1500])] = ⟨true, some 1500⟩ := by
    have hlook : lookupMetric [("http_req_duration", MetricData.trendData [1500])]
        "http_req_duration" = some (MetricData.trendData [1500]) := rfl
    simp only [evaluate, hlook, aggValue, cmpHolds, hperc]
    norm_num
  constructor
  · exact threshold_eval_deterministic.1
      ⟨"http_req_duration", ⟨Agg.pAgg 95, Cmp.ltCmp, 2000⟩⟩
      [("http_req_duration", MetricData.trendData [1500])]
      ⟨true, some 1500⟩ ⟨true, some 1500⟩ heval heval
  · exact threshold_eval_deterministic.2 [1900, 100] [100, 1900] 95
      (List.Perm.swap _ _ _)

/-- One recorded check: name and pass/fail. -/
structure CheckResult where
  name : String
  passed : Bool
  deriving DecidableEq, Repr

/-- Modelled from the spec: the failure kinds an iteration can raise —
network error, assertion exception, or a per-iteration timeout. -/
inductive IterErr
  | netFailure (msg : String)
  | assertFailure (msg : String)
  | timedOut
  deriving DecidableEq, Repr

/-- Modelled from the spec: one IterationResult — duration, ordered checks,
and an optional failure description. -/
structure IterationResult where
  duration : ℚ
  checks : List CheckResult
  error : Option IterErr
  deriving DecidableEq, Repr

/-- Modelled from the spec: the Iteration Executor's run invokes the
user-supplied iteration function once (an opaque callable that either
returns its duration and checks or raises a failure) and converts any
raised failure into IterationResult.error, never re-raising it: the
executor is total and always returns an IterationResult. -/
def runIteration {Ctx : Type} (iterFn : Ctx → Except IterErr (ℚ × List CheckResult))
    (ctx : Ctx) : IterationResult :=
  match iterFn ctx with
  | Except.error e => ⟨0, [], some e⟩
  | Except.ok (d, cs) => ⟨d, cs, none⟩

/-- The terminal run states of the coordinator state machine. -/
inductive RunState
  | Completed
  | Aborted
  deriving DecidableEq, Repr

/-- Modelled from the spec: aggregate the per-iteration results into the
final metric snapshot — an iteration Counter, an error_rate Rate fed one
boolean observation per iteration, and an iteration-duration Trend. -/
def aggregateResults (results : List IterationResult) : Snapshot :=
  [("iterations", MetricData.counterData (results.length : ℚ)),
   ("error_rate", MetricData.rateData
      (results.countP (fun r => r.error.isSome)) results.length),
   ("iteration_duration", MetricData.trendData (results.map (fun r => r.duration)))]

/-- Modelled from the spec: finish the run — if some abort-enabled
threshold fails on the snapshot the run is Aborted with verdict Fail,
otherwise it reaches Completed with the verdict computed by the Threshold
Evaluator on the aggregated snapshot. -/
def finishRun (results : List IterationResult) (ths : List (Threshold × Bool)) :
    RunState × Verdict :=
  let snap := aggregateResults results
  if ths.any (fun p => p.2 && !(evaluate p.1 snap).passed) then
    (RunState.Aborted, Verdict.Fail)
  else (RunState.Completed, verdictOf (ths.map Prod.fst) snap)

/-- C5: any failure raised inside the iteration function is caught and
recorded in IterationResult.error — the executor returns a result rather
than propagating the exception; and a run with no failing abort-enabled
threshold reaches Completed with its verdict computed solely by the
Threshold Evaluator on the aggregated snapshot — the presence of iteration
errors or failed checks influences the verdict only through that snapshot. -/
theorem iteration_errors_contained :
    (∀ (Ctx : Type) (iterFn : Ctx → Except IterErr (ℚ × List CheckResult))
        (ctx : Ctx) (e : IterErr),
        iterFn ctx = Except.error e →
        runIteration iterFn ctx = ⟨0, [], some e⟩) ∧
    (∀ (results : List IterationResult) (ths : List (Threshold × Bool)),
        (∀ p ∈ ths, p.2 = true →
            (evaluate p.1 (aggregateResults results)).passed = true) →
        finishRun results ths =
          (RunState.Completed, verdictOf (ths.map Prod.fst) (aggregateResults results))) := by
  constructor
  · intro Ctx iterFn ctx e h
    simp [runIteration, h]
  · intro results ths h
    have hnone : ths.any
        (fun p => p.2 && !(evaluate p.1 (aggregateResults results)).passed) = false := by
      rw [List.any_eq_false]
      intro p hp
      rcases hb : p.2 with _ | _
      · simp [hb]
      · simp [hb, h p hp hb]
    simp [finishRun, hnone]

/-- Witness for C5: an iteration function that raises a timeout yields a
result recording the timeout; and a run of two iterations, one with a
failed check, under an abort-enabled error_rate threshold that passes,
reaches Completed with the evaluator's verdict. -/
theorem iteration_errors_contained_witness :
    runIteration (fun _ : Unit => Except.error IterErr.timedOut) () =
      ⟨0, [], some IterErr.timedOut⟩ ∧
    finishRun [⟨1, [⟨"status is 200", false⟩], none⟩, ⟨2, [], none⟩]
        [(⟨"error_rate", ⟨Agg.rateAgg, Cmp.ltCmp, 1 / 2⟩⟩, true)] =
      (RunState.Completed,
        verdictOf [⟨"error_rate", ⟨Agg.rateAgg, Cmp.ltCmp, 1 / 2⟩⟩]
          (aggregateResults [⟨1, [⟨"status is 200", false⟩], none⟩, ⟨2, [], none⟩])) := by
  constructor
  · exact iteration_errors_contained.1 Unit
      (fun _ => Except.error IterErr.timedOut) () IterErr.timedOut rfl
  · refine iteration_errors_contained.2
      [⟨1, [⟨"status is 200", false⟩], none⟩, ⟨2, [], none⟩]
      [(⟨"error_rate", ⟨Agg.rateAgg, Cmp.ltCmp, 1 / 2⟩⟩, true)] ?_
    intro p hp _
    have hp2 : p = (⟨"error_rate", ⟨Agg.rateAgg, Cmp.ltCmp, 1 / 2⟩⟩, true) := by
      simpa using hp
    subst hp2
    have hlook : lookupMetric
        (aggregateResults [⟨1, [⟨"status is 200", false⟩], none⟩, ⟨2, [], none⟩])
        "error_rate" = some (MetricData.rateData 0 2) := rfl
    simp only [evaluate, hlook, aggValue, cmpHolds]
    norm_num

/-- Modelled from the spec: the phases of one tracked iteration of a
virtual user in the pool.  inFlight carries whether the user has been
marked Stopping (by a shrink or stopAll); finished records that the
iteration completed and its result was produced; laterIters covers any
subsequent iterations of a non-stopping user, after the tracked iteration
already reported; removed is the user's removal from the pool. -/
inductive IterPhase
  | inFlight (stopping : Bool)
  | finished (stopping : Bool)
  | laterIters
  | removed
  deriving DecidableEq, Repr

/-- Modelled from the spec: the pool's transitions for one user, paired
with the number of IterationResults produced for the tracked iteration.
A shrink or stopAll only marks the user Stopping (mark); a user — stopping
or not — completes its in-flight iteration and produces exactly one result
(complete); a Stopping user is removed only after its current iteration
finished (retire); a non-stopping user moves on to later iterations (loop)
and may be removed after those (retireLater).  There is no transition out
of inFlight into removed: the pool never aborts an iteration mid-flight. -/
inductive vuStep : IterPhase × ℕ → IterPhase × ℕ → Prop
  | mark (r : ℕ) : vuStep (IterPhase.inFlight false, r) (IterPhase.inFlight true, r)
  | complete (b : Bool) (r : ℕ) :
      vuStep (IterPhase.inFlight b, r) (IterPhase.finished b, r + 1)
  | retire (r : ℕ) : vuStep (IterPhase.finished true, r) (IterPhase.removed, r)
  | loop (r : ℕ) : vuStep (IterPhase.finished false, r) (IterPhase.laterIters, r)
  | retireLater (r : ℕ) : vuStep (IterPhase.laterIters, r) (IterPhase.removed, r)

/-- The invariant tying the tracked iteration's result count to the phase:
none produced while in flight, exactly one from completion onwards. -/
def vuInv : IterPhase × ℕ → Prop
  | (IterPhase.inFlight _, r) => r = 0
  | (_, r) => r = 1

lemma vuInv_preserved {s₁ s₂ : IterPhase × ℕ} (h : vuStep s₁ s₂) (hinv : vuInv s₁) :
    vuInv s₂ := by
  cases h <;> simp_all [vuInv]

/-- C3: for every virtual user whose iteration started before stopAll or
before a shrink marked it Stopping, every execution of the pool that
removes the user produces exactly one IterationResult for that iteration
before the removal — the pool never aborts the iteration mid-flight. -/
theorem rampdown_never_truncates (b : Bool) (r : ℕ)
    (h : Relation.ReflTransGen vuStep (IterPhase.inFlight b, 0) (IterPhase.removed, r)) :
    r = 1 := by
  have hall : ∀ s, Relation.ReflTransGen vuStep (IterPhase.inFlight b, 0) s → vuInv s := by
    intro s hs
    induction hs with
    | refl => simp [vuInv]
    | tail _ hstep ih =>
      exact vuInv_preserved hstep ih
  exact hall (IterPhase.removed, r) h

/-- Witness for C3: a user mid-iteration is marked Stopping by stopAll,
completes its iteration producing its one result, and is then removed. -/
theorem rampdown_never_truncates_witness :
    Relation.ReflTransGen vuStep (IterPhase.inFlight false, 0) (IterPhase.removed, 1) ∧
      (1 : ℕ) = 1 := by
  have htrace : Relation.ReflTransGen vuStep (IterPhase.inFlight false, 0)
      (IterPhase.removed, 1) :=
    Relation.ReflTransGen.head (vuStep.mark 0)
      (Relation.ReflTransGen.head (vuStep.complete true 0)
        (Relation.ReflTransGen.head (vuStep.retire 1) Relation.ReflTransGen.refl))
  exact ⟨htrace, rampdown_never_truncates false 1 htrace⟩

end K6
